import Mathlib

/-!
# Shallow embedding of the fs4 file-locking / preallocation crate

Each definition below is translated from the repository source
(`src/src/unix.rs`, `src/src/unix/sync_impl.rs`, `src/src/windows/sync_impl.rs`,
`src/src/unix/async_impl.rs`, `src/src/windows/async_impl.rs`); the async
variants are textually identical to the sync ones module-by-module, so a single
embedding covers both.  Operating-system calls (`libc::fcntl`, `libc::flock`,
`libc::dup`, `posix_fallocate`, `ftruncate`/`set_len`, the Win32 file-information
calls, `libc::statvfs`) are modelled by an explicit environment record that
fixes the outcome of each call; their effects on the modelled file state follow
the platform documentation of the call in question, noted at each definition.
Machine integers are `Nat` (all the quantities involved are non-negative byte
counts, block counts or flag words below 2^32).
-/

namespace Fs4

/-! ## Platform constants

Values of the libc constants used by the source, for the platforms whose code
paths they belong to (Solaris for the fcntl emulation, macOS for the
preallocation path).  `LOCK_*` values are the common BSD/Solaris ones. -/

def LOCK_SH : Nat := 1
def LOCK_EX : Nat := 2
def LOCK_NB : Nat := 4
def LOCK_UN : Nat := 8

/-- Solaris `F_SETLK`. -/
def F_SETLK : Nat := 6
/-- Solaris `F_SETLKW`. -/
def F_SETLKW : Nat := 7
/-- Solaris `F_RDLCK`. -/
def F_RDLCK : Nat := 1
/-- Solaris `F_WRLCK`. -/
def F_WRLCK : Nat := 2
/-- Solaris `F_UNLCK`. -/
def F_UNLCK : Nat := 3

/-- Solaris/Linux `EWOULDBLOCK` (= `EAGAIN` = 11). -/
def EWOULDBLOCK : Nat := 11
/-- `EACCES`. -/
def EACCES : Nat := 13
/-- `EINVAL`. -/
def EINVAL : Nat := 22
/-- `EINTR`. -/
def EINTR : Nat := 4

/-- macOS `F_ALLOCATECONTIG` (0x2). -/
def F_ALLOCATECONTIG : Nat := 2
/-- macOS `F_ALLOCATEALL` (0x4). -/
def F_ALLOCATEALL : Nat := 4

/-! ## The lock layer (`src/src/unix.rs`) -/

/-- `lock_error()` in `unix.rs`: `Error::from_raw_os_error(libc::EWOULDBLOCK)`.
We model an `std::io::Error` built from a raw OS error by the raw code itself,
so `lock_error` is the sentinel code. -/
def lock_error : Nat := EWOULDBLOCK

/-- The five public locking operations generated by `lock_impl!`. -/
inductive LockOp
  | lockShared
  | lockExclusive
  | tryLockShared
  | tryLockExclusive
  | unlock
deriving DecidableEq, Repr

/-- The `flag` each public operation passes to `flock`, read off `lock_impl!`:
`LOCK_SH`, `LOCK_EX`, `LOCK_SH | LOCK_NB`, `LOCK_EX | LOCK_NB`, `LOCK_UN`. -/
def LockOp.flag : LockOp → Nat
  | .lockShared => LOCK_SH
  | .lockExclusive => LOCK_EX
  | .tryLockShared => LOCK_SH ||| LOCK_NB
  | .tryLockExclusive => LOCK_EX ||| LOCK_NB
  | .unlock => LOCK_UN

/-- A record-lock request as assembled by the Solaris emulation: the `fcntl`
command together with the `flock` struct fields the source sets.  The source
initializes `l_whence`, `l_start`, `l_len` to `0` and never changes them, and
ors the lock type into `l_type` (initially `0`). -/
structure FcntlCall where
  cmd : Nat
  l_type : Nat
  l_whence : Nat
  l_start : Nat
  l_len : Nat
deriving DecidableEq, Repr

/-- Outcome the OS gives to one `fcntl`/`flock` invocation: `ret` is the return
value (negative encoded as `false` in `ok`), `errno` the error code observed via
`last_os_error` when it fails. -/
structure SysOutcome where
  ok : Bool
  errno : Nat
deriving DecidableEq, Repr

/-- Result of a lock call: `Except e ()` with `e` the raw OS error code of the
returned `std::io::Error`. -/
abbrev LockResult := Except Nat Unit

/-- Solaris `flock` emulation (`unix.rs`, `#[cfg(target_os = "solaris")] fn
flock`), translated clause by clause.  Besides the result it reports the
`fcntl` call it issued, if any (`none` when the flag dispatch rejects the
operation before any system call).

* `(cmd, operation)` selection: `match flag & LOCK_NB { 0 => (F_SETLKW, flag),
  _ => (F_SETLK, flag & !LOCK_NB) }`.  When bit `LOCK_NB` is set,
  `flag & !LOCK_NB` clears exactly that bit, i.e. subtracts `4`.
* `operation` dispatch into `l_type`, default arm `EINVAL`.
* the `fcntl` outcome is supplied by `out`; on failure `EACCES` is translated
  to `lock_error()` and any other errno is returned verbatim. -/
def solarisFlock (out : SysOutcome) (flag : Nat) : LockResult × Option FcntlCall :=
  let cmdOp : Nat × Nat :=
    if flag &&& LOCK_NB == 0 then (F_SETLKW, flag) else (F_SETLK, flag - LOCK_NB)
  let cmd := cmdOp.1
  let operation := cmdOp.2
  if operation == LOCK_SH then
    let call : FcntlCall :=
      { cmd := cmd, l_type := F_RDLCK, l_whence := 0, l_start := 0, l_len := 0 }
    (if out.ok then Except.ok () else
      if out.errno == EACCES then Except.error lock_error else Except.error out.errno,
     some call)
  else if operation == LOCK_EX then
    let call : FcntlCall :=
      { cmd := cmd, l_type := F_WRLCK, l_whence := 0, l_start := 0, l_len := 0 }
    (if out.ok then Except.ok () else
      if out.errno == EACCES then Except.error lock_error else Except.error out.errno,
     some call)
  else if operation == LOCK_UN then
    let call : FcntlCall :=
      { cmd := cmd, l_type := F_UNLCK, l_whence := 0, l_start := 0, l_len := 0 }
    (if out.ok then Except.ok () else
      if out.errno == EACCES then Except.error lock_error else Except.error out.errno,
     some call)
  else
    (Except.error EINVAL, none)

/-- Non-Solaris Unix `flock` (`unix.rs`, `#[cfg(not(target_os = "solaris"))]`):
one call to `libc::flock`; a negative return yields `last_os_error()` verbatim,
otherwise success.  `outs i` supplies the outcome the OS would give to the
`i`-th underlying `libc::flock` invocation (the source makes exactly one, so
only `outs 0` is consulted); the second component counts how many underlying
calls were made. -/
def unixFlock (outs : Nat → SysOutcome) (flag : Nat) : LockResult × Nat :=
  (if (outs 0).ok then Except.ok () else Except.error (outs 0).errno, 1)

/-- A public lock operation on Solaris: `lock_impl!` routes each operation to
`flock` with its flag. -/
def solarisLockOp (out : SysOutcome) (op : LockOp) : LockResult × Option FcntlCall :=
  solarisFlock out op.flag

/-- A public lock operation on non-Solaris Unix. -/
def unixLockOp (outs : Nat → SysOutcome) (op : LockOp) : LockResult × Nat :=
  unixFlock outs op.flag

/-! ## Windows lock errors

Modelled from the spec: the Windows `lock_impl!`/`lock_error` code
(`windows.rs`) is not under `src/` — only its allocation-side modules are.  Per
the spec, "every contention failure ... is normalized to one sentinel error
value equivalent to `WouldBlock`, regardless of the platform's native code
(`EWOULDBLOCK`, `EACCES`-on-Solaris, Windows lock-violation code). Any other OS
failure is surfaced verbatim (with its native code preserved)". -/

/-- The Win32 lock-violation code, `ERROR_LOCK_VIOLATION` (33). -/
def ERROR_LOCK_VIOLATION : Nat := 33

/-- Modelled from the spec: the Windows Contended sentinel (`lock_error()` of
the absent `windows.rs`) is the single error value a contention failure is
normalized to; per the spec it absorbs "the Windows lock-violation code", so
its raw code is `ERROR_LOCK_VIOLATION` — not `EWOULDBLOCK`, which does not
exist among Win32 error codes. -/
def winLockError : Nat := ERROR_LOCK_VIOLATION

/-- Modelled from the spec: the raw code a failing Windows lock call returns —
the platform's lock-violation code (contention) becomes the single Contended
sentinel, every other code is surfaced verbatim. -/
def winLockResult (e : Nat) : Nat :=
  if e == ERROR_LOCK_VIOLATION then winLockError else e

/-! ## File metadata and the allocation engine -/

/-- Result of an I/O operation: `Except e ()` with `e` the raw OS error code. -/
abbrev IoResult := Except Nat Unit

/-- The Unix file metadata the source consults: `metadata.blocks()` (number of
512-byte blocks backing the file) and `metadata.size()`/`metadata.len()` (the
logical length in bytes). -/
structure UnixFileStat where
  blocks : Nat
  size : Nat
deriving DecidableEq, Repr

/-- `allocated_size` on Unix (`sync_impl.rs`):
`file.metadata().map(|m| m.blocks() as u64 * 512)`. -/
def unixAllocatedSize (metaOut : SysOutcome) (st : UnixFileStat) : Except Nat Nat :=
  if metaOut.ok then Except.ok (st.blocks * 512) else Except.error metaOut.errno

/-- Environment for the Linux-family `allocate` (`posix_fallocate`). On
success, the POSIX contract of `posix_fallocate(fd, 0, len)` guarantees the
range `[0, len)` is backed by storage and extends the logical size to
`max size len` if needed; the resulting block count is supplied by the
environment (`fallocBlocks`). -/
structure LinuxEnv where
  falloc : SysOutcome
  fallocBlocks : Nat
deriving Repr

/-- `allocate` on linux/freebsd/android/emscripten/nacl
(`unix/sync_impl.rs`): one `posix_fallocate(fd, 0, len)`; `ret == 0` is
success, anything else reports `last_os_error()`.  The state change on success
follows the documented `posix_fallocate` contract (see `LinuxEnv`). -/
def linuxAllocate (env : LinuxEnv) (st : UnixFileStat) (len : Nat) :
    IoResult × UnixFileStat :=
  if env.falloc.ok then
    (Except.ok (), { blocks := env.fallocBlocks, size := max st.size len })
  else
    (Except.error env.falloc.errno, st)

/-- One OS call made by the macOS-family `allocate`. -/
inductive MacCall
  | prealloc (fst_flags : Nat) (fst_length : Nat)
  | setLen (len : Nat)
deriving DecidableEq, Repr

/-- Environment for the macOS-family `allocate`: outcome of the metadata
query, of the two possible `fcntl(F_PREALLOCATE)` attempts (with the block
count each would leave on success — `F_PREALLOCATE` only ever adds backing
store), and of `set_len`.  `set_len` (`ftruncate`) extends the logical length
and, per POSIX, the extended part reads as zeros without any blocks having to
be allocated, so it leaves `blocks` unchanged in the model. -/
structure MacEnv where
  metaOut : SysOutcome
  contigOut : SysOutcome
  contigBlocks : Nat
  allOut : SysOutcome
  allBlocks : Nat
  setLenOut : SysOutcome
deriving Repr

/-- The second half of the macOS-family `allocate`: `if len > stat.size()
{ file.set_len(len) } else { Ok(()) }`, where `stat` is the metadata snapshot
taken at entry and `st1`/`tr` are the state and call trace left by the
allocation step. -/
def macLengthStep (env : MacEnv) (stat st1 : UnixFileStat) (tr : List MacCall) (len : Nat) :
    IoResult × UnixFileStat × List MacCall :=
  if len > stat.size then
    if env.setLenOut.ok then
      (Except.ok (), { st1 with size := len }, tr ++ [MacCall.setLen len])
    else
      (Except.error env.setLenOut.errno, st1, tr ++ [MacCall.setLen len])
  else
    (Except.ok (), st1, tr)

/-- `allocate` on macos/ios (`unix/sync_impl.rs`), clause by clause:

* `let stat = file.metadata()?;`
* `if len > stat.blocks() * 512`: build an `fstore_t` with
  `fst_flags = F_ALLOCATECONTIG`, `fst_length = len`, call
  `fcntl(F_PREALLOCATE)`; on `-1`, set `fst_flags = F_ALLOCATEALL` and retry;
  if the retry also returns `-1`, return `last_os_error()`.
* `if len > stat.size()`: `file.set_len(len)`, else `Ok(())`
  (`macLengthStep`).

Returns the result, the final file state and the list of OS calls issued. -/
def macosAllocate (env : MacEnv) (st : UnixFileStat) (len : Nat) :
    IoResult × UnixFileStat × List MacCall :=
  if env.metaOut.ok then
    let stat := st
    let allocStep : Option (UnixFileStat × List MacCall) :=
      if len > stat.blocks * 512 then
        if env.contigOut.ok then
          some ({ st with blocks := env.contigBlocks },
                [MacCall.prealloc F_ALLOCATECONTIG len])
        else if env.allOut.ok then
          some ({ st with blocks := env.allBlocks },
                [MacCall.prealloc F_ALLOCATECONTIG len,
                 MacCall.prealloc F_ALLOCATEALL len])
        else
          none
      else
        some (st, [])
    match allocStep with
    | none =>
      (Except.error env.allOut.errno, st,
       [MacCall.prealloc F_ALLOCATECONTIG len, MacCall.prealloc F_ALLOCATEALL len])
    | some (st1, tr) => macLengthStep env stat st1 tr len
  else
    (Except.error env.metaOut.errno, st, [])

/-- Environment for the fallback `allocate` (openbsd/netbsd/dragonfly/solaris/
haiku): a metadata query and a possible `set_len`.  As in `MacEnv`, `set_len`
extension leaves a hole: `blocks` is unchanged. -/
structure FallbackEnv where
  metaOut : SysOutcome
  setLenOut : SysOutcome
deriving Repr

/-- `allocate` on openbsd/netbsd/dragonfly/solaris/haiku
(`unix/sync_impl.rs`): "No file allocation API available, just set the length
if necessary": `if len > file.metadata()?.len() { file.set_len(len) } else
{ Ok(()) }`. -/
def fallbackAllocate (env : FallbackEnv) (st : UnixFileStat) (len : Nat) :
    IoResult × UnixFileStat :=
  if env.metaOut.ok then
    if len > st.size then
      if env.setLenOut.ok then (Except.ok (), { st with size := len })
      else (Except.error env.setLenOut.errno, st)
    else
      (Except.ok (), st)
  else
    (Except.error env.metaOut.errno, st)

/-- Windows file state as the source observes it: the `AllocationSize` field of
`FILE_STANDARD_INFO` and the logical length (`metadata().len()`, the
end-of-file position). -/
structure WinFile where
  allocationSize : Nat
  eof : Nat
deriving DecidableEq, Repr

/-- One OS call made (or, per the spec's description, allegedly made) by the
Windows `allocate`.  `setFilePointer`/`setEndOfFile` are in the alphabet so
that the spec's description of the mechanism can be stated against the trace;
the implementation itself only ever emits the other four. -/
inductive WinCall
  | queryInfo
  | setFileInfo (allocationSize : Nat)
  | setFilePointer (pos : Nat)
  | setEndOfFile
  | metaQuery
  | setLen (len : Nat)
deriving DecidableEq, Repr

/-- Environment for the Windows `allocate`: outcomes of
`GetFileInformationByHandleEx`, `SetFileInformationByHandle`
(`FileAllocationInfo`), the metadata query, and `set_len`.  Setting the
allocation size to `len` leaves the OS free to adjust the end-of-file position;
`setInfoEof len eof` is the EOF it leaves behind (the Win32 documentation
constrains EOF and allocation only loosely for sparse/compressed files, so the
model keeps this OS-chosen). `set_len` sets the EOF to `len` and leaves
`allocationSize` untouched. -/
structure WinEnv where
  queryOut : SysOutcome
  setInfoOut : SysOutcome
  setInfoEof : Nat → Nat → Nat
  metaOut : SysOutcome
  setLenOut : SysOutcome

/-- `allocated_size` on Windows (`windows/sync_impl.rs`): one
`GetFileInformationByHandleEx(FileStandardInfo)`; on failure
`last_os_error()`, on success `info.AllocationSize`. -/
def winAllocatedSize (env : WinEnv) (f : WinFile) : Except Nat Nat :=
  if env.queryOut.ok then Except.ok f.allocationSize else Except.error env.queryOut.errno

/-- The second half of the Windows `allocate`: `if file.metadata()?.len() <
len { file.set_len(len) } else { Ok(()) }`, where `f1`/`tr` are the state and
call trace left by the allocation step. -/
def winLengthStep (env : WinEnv) (f1 : WinFile) (tr : List WinCall) (len : Nat) :
    IoResult × WinFile × List WinCall :=
  if env.metaOut.ok then
    if f1.eof < len then
      if env.setLenOut.ok then
        (Except.ok (), { f1 with eof := len },
         tr ++ [WinCall.metaQuery, WinCall.setLen len])
      else
        (Except.error env.setLenOut.errno, f1,
         tr ++ [WinCall.metaQuery, WinCall.setLen len])
    else
      (Except.ok (), f1, tr ++ [WinCall.metaQuery])
  else
    (Except.error env.metaOut.errno, f1, tr ++ [WinCall.metaQuery])

/-- `allocate` on Windows (`windows/sync_impl.rs`), clause by clause:

* `if allocated_size(file)? < len`: build a `FILE_ALLOCATION_INFO` with
  `AllocationSize = len` and issue one `SetFileInformationByHandle
  (FileAllocationInfo)`; a zero return reports `last_os_error()`.
* `if file.metadata()?.len() < len { file.set_len(len) } else { Ok(()) }`
  (`winLengthStep`).

Returns the result, the final file state and the list of OS calls issued. -/
def winAllocate (env : WinEnv) (f : WinFile) (len : Nat) :
    IoResult × WinFile × List WinCall :=
  if env.queryOut.ok then
    let allocStep : Option (WinFile × List WinCall) :=
      if f.allocationSize < len then
        if env.setInfoOut.ok then
          some ({ allocationSize := len, eof := env.setInfoEof len f.eof },
                [WinCall.queryInfo, WinCall.setFileInfo len])
        else
          none
      else
        some (f, [WinCall.queryInfo])
    match allocStep with
    | none =>
      (Except.error env.setInfoOut.errno, f,
       [WinCall.queryInfo, WinCall.setFileInfo len])
    | some (f1, tr) => winLengthStep env f1 tr len
  else
    (Except.error env.queryOut.errno, f, [WinCall.queryInfo])

/-! ## Duplication (`duplicate!` in `unix.rs`) -/

/-- The per-descriptor attributes relevant to duplication: the close-on-exec
flag (`FD_CLOEXEC`, queried via `F_GETFD`) and the file status flags
(`F_GETFL`). -/
structure FdFlags where
  cloexec : Bool
  statusFlags : Nat
deriving DecidableEq, Repr

/-- `duplicate` (`unix.rs` `duplicate!`): one `libc::dup(fd)`; a negative
return reports `last_os_error()`, otherwise the new descriptor is wrapped.
The new descriptor's attributes follow the documented `dup(2)` semantics: the
file status flags are shared with the original (same open file description),
while "the FD_CLOEXEC flag associated with the new file descriptor shall be
cleared" (POSIX `dup`). -/
def unixDuplicate (dupOut : SysOutcome) (f : FdFlags) : Except Nat FdFlags :=
  if dupOut.ok then
    Except.ok { cloexec := false, statusFlags := f.statusFlags }
  else
    Except.error dupOut.errno

/-! ## Filesystem stats (`statvfs` in `unix.rs`) -/

/-- The fields of the native `libc::statvfs` structure the source reads. -/
structure StatvfsRaw where
  f_frsize : Nat
  f_bfree : Nat
  f_bavail : Nat
  f_blocks : Nat
deriving DecidableEq, Repr

/-- The crate's `FsStats`, as filled in by `statvfs`. -/
structure FsStats where
  free_space : Nat
  available_space : Nat
  total_space : Nat
  allocation_granularity : Nat
deriving DecidableEq, Repr

/-- A `statvfs` failure: the `ErrorKind::InvalidInput` error for unencodable
paths, or a raw OS error. -/
inductive StatvfsErr
  | invalidInput
  | os (code : Nat)
deriving DecidableEq, Repr

/-- `statvfs` (`unix.rs`): `CString::new(path.as_os_str().as_bytes())` fails
(with `ErrorKind::InvalidInput`, "path contained a null") exactly when the
byte string contains a `0` byte; otherwise one `libc::statvfs` call (outcome
`out`), whose failure is surfaced as `last_os_error()` and whose success is
repackaged as `f_frsize * f_bfree` / `f_frsize * f_bavail` /
`f_frsize * f_blocks` / `f_frsize`.  The boolean records whether the
`libc::statvfs` syscall was performed. -/
def statvfs (out : Except Nat StatvfsRaw) (path : List Nat) :
    Except StatvfsErr FsStats × Bool :=
  if path.contains 0 then
    (Except.error StatvfsErr.invalidInput, false)
  else
    match out with
    | Except.error e => (Except.error (StatvfsErr.os e), true)
    | Except.ok s =>
      (Except.ok
        { free_space := s.f_frsize * s.f_bfree
          available_space := s.f_frsize * s.f_bavail
          total_space := s.f_frsize * s.f_blocks
          allocation_granularity := s.f_frsize }, true)

/-! ## Shared concrete environments for witnesses and counterexamples -/

/-- A system call outcome that succeeds. -/
def okOut : SysOutcome := { ok := true, errno := 0 }

/-- A system call outcome failing with errno `e`. -/
def errOut (e : Nat) : SysOutcome := { ok := false, errno := e }

/-! ## Reduction helpers -/

/-- The `fcntl` request the Solaris emulation builds for each public
operation. -/
def solarisCall : LockOp → FcntlCall
  | LockOp.lockShared =>
    { cmd := F_SETLKW, l_type := F_RDLCK, l_whence := 0, l_start := 0, l_len := 0 }
  | LockOp.lockExclusive =>
    { cmd := F_SETLKW, l_type := F_WRLCK, l_whence := 0, l_start := 0, l_len := 0 }
  | LockOp.tryLockShared =>
    { cmd := F_SETLK, l_type := F_RDLCK, l_whence := 0, l_start := 0, l_len := 0 }
  | LockOp.tryLockExclusive =>
    { cmd := F_SETLK, l_type := F_WRLCK, l_whence := 0, l_start := 0, l_len := 0 }
  | LockOp.unlock =>
    { cmd := F_SETLKW, l_type := F_UNLCK, l_whence := 0, l_start := 0, l_len := 0 }

/-- On each public operation the Solaris emulation takes a legal dispatch
branch: it issues `solarisCall op` and classifies the outcome, translating
`EACCES`. -/
theorem solarisLockOp_eq (out : SysOutcome) (op : LockOp) :
    solarisLockOp out op =
      ((if out.ok then Except.ok () else
          if out.errno == EACCES then Except.error lock_error
          else Except.error out.errno),
        some (solarisCall op)) := by
  cases op <;> rfl

/-- `macosAllocate` when the metadata query fails. -/
theorem macosAllocate_meta_err (env : MacEnv) (st : UnixFileStat) (len : Nat)
    (hm : env.metaOut.ok = false) :
    macosAllocate env st len = (Except.error env.metaOut.errno, st, []) := by
  simp [macosAllocate, hm]

/-- `macosAllocate` when the allocation step is skipped
(`len ≤ stat.blocks * 512`). -/
theorem macosAllocate_skip (env : MacEnv) (st : UnixFileStat) (len : Nat)
    (hm : env.metaOut.ok = true) (h1 : ¬ len > st.blocks * 512) :
    macosAllocate env st len = macLengthStep env st st [] len := by
  simp [macosAllocate, hm, h1]

/-- `macosAllocate` when the contiguous attempt succeeds. -/
theorem macosAllocate_contig (env : MacEnv) (st : UnixFileStat) (len : Nat)
    (hm : env.metaOut.ok = true) (h1 : len > st.blocks * 512)
    (hc : env.contigOut.ok = true) :
    macosAllocate env st len =
      macLengthStep env st { st with blocks := env.contigBlocks }
        [MacCall.prealloc F_ALLOCATECONTIG len] len := by
  simp [macosAllocate, hm, h1, hc]

/-- `macosAllocate` when the contiguous attempt fails and the non-contiguous
retry succeeds. -/
theorem macosAllocate_retry (env : MacEnv) (st : UnixFileStat) (len : Nat)
    (hm : env.metaOut.ok = true) (h1 : len > st.blocks * 512)
    (hc : env.contigOut.ok = false) (ha : env.allOut.ok = true) :
    macosAllocate env st len =
      macLengthStep env st { st with blocks := env.allBlocks }
        [MacCall.prealloc F_ALLOCATECONTIG len, MacCall.prealloc F_ALLOCATEALL len]
        len := by
  simp [macosAllocate, hm, h1, hc, ha]

/-- `macosAllocate` when both preallocation attempts fail. -/
theorem macosAllocate_bothfail (env : MacEnv) (st : UnixFileStat) (len : Nat)
    (hm : env.metaOut.ok = true) (h1 : len > st.blocks * 512)
    (hc : env.contigOut.ok = false) (ha : env.allOut.ok = false) :
    macosAllocate env st len =
      (Except.error env.allOut.errno, st,
       [MacCall.prealloc F_ALLOCATECONTIG len, MacCall.prealloc F_ALLOCATEALL len]) := by
  simp [macosAllocate, hm, h1, hc, ha]

/-- `winAllocate` when the file-information query fails. -/
theorem winAllocate_query_err (env : WinEnv) (f : WinFile) (len : Nat)
    (hq : env.queryOut.ok = false) :
    winAllocate env f len = (Except.error env.queryOut.errno, f, [WinCall.queryInfo]) := by
  simp [winAllocate, hq]

/-- `winAllocate` when the allocation step is skipped
(`allocated_size ≥ len`). -/
theorem winAllocate_skip (env : WinEnv) (f : WinFile) (len : Nat)
    (hq : env.queryOut.ok = true) (h1 : ¬ f.allocationSize < len) :
    winAllocate env f len = winLengthStep env f [WinCall.queryInfo] len := by
  simp [winAllocate, hq, h1]

/-- `winAllocate` when the set-allocation call runs and succeeds. -/
theorem winAllocate_set (env : WinEnv) (f : WinFile) (len : Nat)
    (hq : env.queryOut.ok = true) (h1 : f.allocationSize < len)
    (hs : env.setInfoOut.ok = true) :
    winAllocate env f len =
      winLengthStep env { allocationSize := len, eof := env.setInfoEof len f.eof }
        [WinCall.queryInfo, WinCall.setFileInfo len] len := by
  simp [winAllocate, hq, h1, hs]

/-- `winAllocate` when the set-allocation call runs and fails. -/
theorem winAllocate_set_err (env : WinEnv) (f : WinFile) (len : Nat)
    (hq : env.queryOut.ok = true) (h1 : f.allocationSize < len)
    (hs : env.setInfoOut.ok = false) :
    winAllocate env f len =
      (Except.error env.setInfoOut.errno, f,
       [WinCall.queryInfo, WinCall.setFileInfo len]) := by
  simp [winAllocate, hq, h1, hs]

/-- The trace the macOS length step appends: a `set_len` exactly when the
entry length is below `len`. -/
theorem macLengthStep_trace (env : MacEnv) (stat st1 : UnixFileStat)
    (tr : List MacCall) (len : Nat) :
    (macLengthStep env stat st1 tr len).2.2 =
      tr ++ (if len > stat.size then [MacCall.setLen len] else []) := by
  by_cases h2 : len > stat.size <;> by_cases hs : env.setLenOut.ok = true <;>
    simp [macLengthStep, h2, hs]

/-- The macOS length step never touches `blocks` and never shrinks `size`. -/
theorem macLengthStep_mono (env : MacEnv) (stat st1 : UnixFileStat)
    (tr : List MacCall) (len : Nat) (hss : st1.size = stat.size) :
    (macLengthStep env stat st1 tr len).2.1.blocks = st1.blocks ∧
    (macLengthStep env stat st1 tr len).2.1.size ≥ st1.size := by
  by_cases h2 : len > stat.size <;> by_cases hs : env.setLenOut.ok = true <;>
    simp [macLengthStep, h2, hs] <;> omega

/-- On success the macOS length step leaves `size ≥ len` and `blocks`
untouched. -/
theorem macLengthStep_ok_facts (env : MacEnv) (stat st1 : UnixFileStat)
    (tr : List MacCall) (len : Nat) (hss : st1.size = stat.size)
    (h : (macLengthStep env stat st1 tr len).1 = Except.ok ()) :
    (macLengthStep env stat st1 tr len).2.1.size ≥ len ∧
    (macLengthStep env stat st1 tr len).2.1.blocks = st1.blocks := by
  by_cases h2 : len > stat.size
  · by_cases hs : env.setLenOut.ok = true
    · simp [macLengthStep, h2, hs]
    · exfalso
      unfold macLengthStep at h
      rw [if_pos h2, if_neg hs] at h
      exact Except.noConfusion h
  · simp [macLengthStep, h2]
    omega

/-- The trace the Windows length step appends: always the metadata query, and
a `set_len` exactly when the metadata query succeeds and the EOF is below
`len`. -/
theorem winLengthStep_trace (env : WinEnv) (f1 : WinFile) (tr : List WinCall)
    (len : Nat) :
    (winLengthStep env f1 tr len).2.2 =
      tr ++ (if env.metaOut.ok = true ∧ f1.eof < len then
        [WinCall.metaQuery, WinCall.setLen len] else [WinCall.metaQuery]) := by
  by_cases hmet : env.metaOut.ok = true <;> by_cases h2 : f1.eof < len <;>
    by_cases hs : env.setLenOut.ok = true <;> simp [winLengthStep, hmet, h2, hs]

/-- The Windows length step never touches `allocationSize` and never shrinks
`eof`. -/
theorem winLengthStep_mono (env : WinEnv) (f1 : WinFile) (tr : List WinCall)
    (len : Nat) :
    (winLengthStep env f1 tr len).2.1.allocationSize = f1.allocationSize ∧
    (winLengthStep env f1 tr len).2.1.eof ≥ f1.eof := by
  by_cases hmet : env.metaOut.ok = true <;> by_cases h2 : f1.eof < len <;>
    by_cases hs : env.setLenOut.ok = true <;> simp [winLengthStep, hmet, h2, hs] <;> omega

/-- On success the Windows length step leaves `eof ≥ len` and
`allocationSize` untouched. -/
theorem winLengthStep_ok_facts (env : WinEnv) (f1 : WinFile) (tr : List WinCall)
    (len : Nat) (h : (winLengthStep env f1 tr len).1 = Except.ok ()) :
    (winLengthStep env f1 tr len).2.1.eof ≥ len ∧
    (winLengthStep env f1 tr len).2.1.allocationSize = f1.allocationSize := by
  by_cases hmet : env.metaOut.ok = true
  · by_cases h2 : f1.eof < len
    · by_cases hs : env.setLenOut.ok = true
      · simp [winLengthStep, hmet, h2, hs]
      · exfalso
        unfold winLengthStep at h
        rw [if_pos hmet, if_pos h2, if_neg hs] at h
        exact Except.noConfusion h
    · simp [winLengthStep, hmet, h2]
      omega
  · exfalso
    unfold winLengthStep at h
    rw [if_neg hmet] at h
    exact Except.noConfusion h

/-- A fully successful environment for the fallback `allocate`. -/
def fallbackEnvOk : FallbackEnv := { metaOut := okOut, setLenOut := okOut }

/-- A fully successful environment for the Windows `allocate` in which the
set-allocation call leaves the EOF unchanged. -/
def winEnvOk : WinEnv :=
  { queryOut := okOut, setInfoOut := okOut, setInfoEof := fun _ e => e,
    metaOut := okOut, setLenOut := okOut }

/-- A fully successful environment for the macOS `allocate`. -/
def macEnvAllOk : MacEnv :=
  { metaOut := okOut, contigOut := okOut, contigBlocks := 0,
    allOut := okOut, allBlocks := 0, setLenOut := okOut }

end Fs4

namespace Fs4

/-! ## Claim theorems -/

/-- **C6**. On Solaris, every public lock operation is emulated via `fcntl`
record locking: the waiting command `F_SETLKW` is used exactly for the
operations whose blocking policy is Wait (`lock_shared`, `lock_exclusive`,
`unlock` — no `LOCK_NB` in their flag) and `F_SETLK` for the two `try_` forms;
the record-lock type is `F_RDLCK` for Shared, `F_WRLCK` for Exclusive and
`F_UNLCK` for Unlock; and every emitted record lock covers the whole file
(`l_whence = l_start = l_len = 0`), never a byte sub-range. -/
theorem solaris_fcntl_emulation (out : SysOutcome) :
    (solarisLockOp out LockOp.lockShared).2 =
      some { cmd := F_SETLKW, l_type := F_RDLCK, l_whence := 0, l_start := 0, l_len := 0 } ∧
    (solarisLockOp out LockOp.lockExclusive).2 =
      some { cmd := F_SETLKW, l_type := F_WRLCK, l_whence := 0, l_start := 0, l_len := 0 } ∧
    (solarisLockOp out LockOp.tryLockShared).2 =
      some { cmd := F_SETLK, l_type := F_RDLCK, l_whence := 0, l_start := 0, l_len := 0 } ∧
    (solarisLockOp out LockOp.tryLockExclusive).2 =
      some { cmd := F_SETLK, l_type := F_WRLCK, l_whence := 0, l_start := 0, l_len := 0 } ∧
    (solarisLockOp out LockOp.unlock).2 =
      some { cmd := F_SETLKW, l_type := F_UNLCK, l_whence := 0, l_start := 0, l_len := 0 } ∧
    ((LockOp.lockShared.flag &&& LOCK_NB = 0) ∧ (LockOp.lockExclusive.flag &&& LOCK_NB = 0) ∧
      (LockOp.unlock.flag &&& LOCK_NB = 0) ∧ LockOp.tryLockShared.flag &&& LOCK_NB ≠ 0 ∧
      LockOp.tryLockExclusive.flag &&& LOCK_NB ≠ 0) :=
  ⟨rfl, rfl, rfl, rfl, rfl, by decide⟩

/-- **C10**. In the Solaris emulation the flag dispatch is total: for any flag
whose operation (the flag with `LOCK_NB` cleared) is none of `LOCK_SH`,
`LOCK_EX`, `LOCK_UN`, the function returns `EINVAL` without issuing any
`fcntl` call; and this branch is unreachable from the public interface — every
public operation's flag dispatches to one of the three legal operations and
issues an `fcntl` call. -/
theorem solaris_dispatch_total (out : SysOutcome) (flag : Nat)
    (h : (if flag &&& LOCK_NB = 0 then flag else flag - LOCK_NB) ≠ LOCK_SH ∧
         (if flag &&& LOCK_NB = 0 then flag else flag - LOCK_NB) ≠ LOCK_EX ∧
         (if flag &&& LOCK_NB = 0 then flag else flag - LOCK_NB) ≠ LOCK_UN) :
    solarisFlock out flag = (Except.error EINVAL, none) ∧
    ∀ op : LockOp, ∃ c, (solarisLockOp out op).2 = some c := by
  refine ⟨?_, ?_⟩
  · obtain ⟨h1, h2, h3⟩ := h
    unfold solarisFlock
    by_cases hnb : flag &&& LOCK_NB = 0
    · rw [if_pos hnb] at h1 h2 h3
      have hb : (flag &&& LOCK_NB == 0) = true := by simpa using hnb
      simp [hb, beq_iff_eq, h1, h2, h3]
    · rw [if_neg hnb] at h1 h2 h3
      have hb : (flag &&& LOCK_NB == 0) = false := by simpa using hnb
      simp [hb, beq_iff_eq, h1, h2, h3]
  · intro op
    cases op <;> exact ⟨_, rfl⟩

/-- Witness for `solaris_dispatch_total`: the flag `LOCK_SH | LOCK_EX` (= 3)
clears to `3`, which is none of the three legal operations, and indeed yields
`EINVAL` with no `fcntl` call. -/
theorem solaris_dispatch_total_witness :
    solarisFlock okOut 3 = (Except.error EINVAL, none) ∧
    ∀ op : LockOp, ∃ c, (solarisLockOp okOut op).2 = some c :=
  solaris_dispatch_total okOut 3 (by decide)

/-- Counterexample to **C1**.  The Contended sentinel does not have raw code
`EWOULDBLOCK` on every platform: on Windows — modelled from the spec, the lock
engine being absent from `src/` — the contention failure is normalized to the
sentinel `winLockError`, whose raw code is the platform's lock-violation code
`ERROR_LOCK_VIOLATION` (33), not `EWOULDBLOCK` (11). -/
theorem windows_sentinel_code_counterexample :
    winLockResult ERROR_LOCK_VIOLATION = winLockError ∧
    winLockError = 33 ∧ EWOULDBLOCK = 11 ∧ winLockError ≠ EWOULDBLOCK :=
  ⟨rfl, rfl, rfl, by decide⟩

/-- **C1 amended**.  Contention is one per-platform sentinel, always
distinguishable from every other failure by identity comparison of the raw
code.  On Unix the sentinel `lock_error()` carries `EWOULDBLOCK`: on Solaris a
failing emulated lock call whose errno is a contention code (`EACCES`,
translated, or `EWOULDBLOCK` = `EAGAIN`, already the sentinel) is returned as
the sentinel, and any other errno is returned verbatim — distinguishable from
the sentinel whenever it is not `EWOULDBLOCK` itself; on non-Solaris Unix
every failure is returned with its native errno untouched, so contention
(`EWOULDBLOCK`) *is* the sentinel and any other code differs from it.  On
Windows (modelled from the spec) the sentinel carries the platform's
lock-violation code rather than `EWOULDBLOCK`: contention is normalized to it
and every other code is preserved verbatim, hence differs from it. -/
theorem contention_sentinel_normalization :
    lock_error = EWOULDBLOCK ∧
    (∀ (out : SysOutcome) (op : LockOp), out.ok = false →
      (out.errno = EACCES ∨ out.errno = EWOULDBLOCK →
        (solarisLockOp out op).1 = Except.error lock_error) ∧
      (out.errno ≠ EACCES → (solarisLockOp out op).1 = Except.error out.errno) ∧
      (out.errno ≠ EACCES → out.errno ≠ EWOULDBLOCK →
        (solarisLockOp out op).1 ≠ Except.error lock_error)) ∧
    (∀ (outs : Nat → SysOutcome) (op : LockOp), (outs 0).ok = false →
      (unixLockOp outs op).1 = Except.error (outs 0).errno ∧
      ((outs 0).errno = EWOULDBLOCK →
        (unixLockOp outs op).1 = Except.error lock_error) ∧
      ((outs 0).errno ≠ EWOULDBLOCK →
        (unixLockOp outs op).1 ≠ Except.error lock_error)) ∧
    (∀ e, (e = ERROR_LOCK_VIOLATION → winLockResult e = winLockError) ∧
      (e ≠ ERROR_LOCK_VIOLATION →
        winLockResult e = e ∧ winLockResult e ≠ winLockError)) ∧
    winLockError = ERROR_LOCK_VIOLATION ∧ winLockError ≠ EWOULDBLOCK := by
  refine ⟨rfl, ?_, ?_, ?_, rfl, by decide⟩
  · intro out op hok
    have hres : (solarisLockOp out op).1 =
        if out.errno == EACCES then Except.error lock_error else Except.error out.errno := by
      rw [solarisLockOp_eq]
      simp [hok]
    refine ⟨?_, ?_, ?_⟩
    · rintro (hacc | hwb)
      · simp [hres, hacc, EACCES]
      · rw [hres]
        by_cases hacc : out.errno = EACCES
        · simp [hacc]
        · have hb : (out.errno == EACCES) = false := by simpa using hacc
          simp [hb, hwb, lock_error]
    · intro hacc
      have hb : (out.errno == EACCES) = false := by simpa using hacc
      simp [hres, hb]
    · intro hacc hwb
      have hb : (out.errno == EACCES) = false := by simpa using hacc
      simp [hres, hb, lock_error]
      exact hwb
  · intro outs op hok
    have hres : (unixLockOp outs op).1 = Except.error (outs 0).errno := by
      simp [unixLockOp, unixFlock, hok]
    refine ⟨hres, ?_, ?_⟩
    · intro hwb
      simp [hres, hwb, lock_error]
    · intro hwb
      simp [hres, lock_error]
      exact hwb
  · intro e
    refine ⟨?_, ?_⟩
    · intro h
      simp [winLockResult, h]
    · intro hne
      have hb : (e == ERROR_LOCK_VIOLATION) = false := by simpa using hne
      refine ⟨by simp [winLockResult, hb], ?_⟩
      simp [winLockResult, hb, winLockError]
      exact hne

/-- Witness for `contention_sentinel_normalization`: a non-blocking Solaris
lock refused with `EACCES` comes back as the sentinel; a non-Solaris failure
with errno 5 (`EIO`) comes back verbatim and differs from the sentinel; a
Windows failure with code 5 is preserved and differs from the Windows
sentinel. -/
theorem contention_sentinel_normalization_witness :
    (solarisLockOp (errOut EACCES) LockOp.tryLockShared).1 = Except.error lock_error ∧
    (unixLockOp (fun _ => errOut 5) LockOp.tryLockExclusive).1 = Except.error 5 ∧
    (unixLockOp (fun _ => errOut 5) LockOp.tryLockExclusive).1 ≠ Except.error lock_error ∧
    winLockResult 5 = 5 ∧ winLockResult 5 ≠ winLockError :=
  ⟨(contention_sentinel_normalization.2.1 (errOut EACCES) LockOp.tryLockShared rfl).1
      (Or.inl rfl),
   (contention_sentinel_normalization.2.2.1 (fun _ => errOut 5) LockOp.tryLockExclusive rfl).1,
   (contention_sentinel_normalization.2.2.1 (fun _ => errOut 5)
      LockOp.tryLockExclusive rfl).2.2 (by decide),
   ((contention_sentinel_normalization.2.2.2.1 5).2 (by decide)).1,
   ((contention_sentinel_normalization.2.2.2.1 5).2 (by decide)).2⟩

/-- OS outcome sequence in which the first underlying locking call fails with
`EINTR` and any retried call would succeed. -/
def eintrThenOk : Nat → SysOutcome := fun i => if i = 0 then errOut EINTR else okOut

/-- Counterexample to **C3**.  With the OS interrupting the first underlying
call (`EINTR`) and ready to grant the lock on a retry, a blocking
`lock_shared` on non-Solaris Unix performs exactly one underlying call and
returns the interruption as an error — it does not retry, and the
interruption is surfaced to the caller. -/
theorem eintr_not_retried_counterexample :
    unixLockOp eintrThenOk LockOp.lockShared = (Except.error EINTR, 1) ∧
    (unixLockOp eintrThenOk LockOp.lockShared).1 ≠ Except.ok () := by
  exact ⟨rfl, fun h => Except.noConfusion h⟩

/-- **C3 amended**: no interrupted-call retry exists.  Every blocking acquire
performs exactly one underlying call and surfaces any failure — interruption
(`EINTR`) included — verbatim as an error; on Solaris, `EINTR` (which is not
`EACCES`) is likewise surfaced verbatim. -/
theorem interruption_surfaced (outs : Nat → SysOutcome) (out : SysOutcome) (op : LockOp)
    (h1 : (outs 0).ok = false) (h2 : out.ok = false) (h3 : out.errno = EINTR) :
    unixLockOp outs op = (Except.error (outs 0).errno, 1) ∧
    (solarisLockOp out op).1 = Except.error EINTR := by
  constructor
  · simp [unixLockOp, unixFlock, h1]
  · rw [solarisLockOp_eq]
    have hb : (out.errno == EACCES) = false := by
      rw [h3]
      decide
    simp [h2, hb, h3]
    intro heq
    exact absurd heq (by decide)

/-- Witness for `interruption_surfaced` at the concrete interrupted outcome. -/
theorem interruption_surfaced_witness :
    unixLockOp eintrThenOk LockOp.lockExclusive = (Except.error (eintrThenOk 0).errno, 1) ∧
    (solarisLockOp (errOut EINTR) LockOp.lockExclusive).1 = Except.error EINTR :=
  interruption_surfaced eintrThenOk (errOut EINTR) LockOp.lockExclusive rfl rfl rfl

/-- **C9**. `statvfs` fails with the invalid-input error, without performing
the OS call, exactly when the path bytes contain an embedded NUL; when the
syscall is performed and fails, its OS error is returned; and on success every
byte quantity is a native unit count times the native unit size (`f_frsize`),
with `allocation_granularity` equal to that unit size. -/
theorem statvfs_spec (out : Except Nat StatvfsRaw) (path : List Nat) :
    (path.contains 0 = true →
      statvfs out path = (Except.error StatvfsErr.invalidInput, false)) ∧
    ((statvfs out path).1 = Except.error StatvfsErr.invalidInput → path.contains 0 = true) ∧
    (path.contains 0 = false →
      (∀ e, out = Except.error e →
        statvfs out path = (Except.error (StatvfsErr.os e), true)) ∧
      (∀ s, out = Except.ok s →
        statvfs out path =
          (Except.ok
            { free_space := s.f_frsize * s.f_bfree
              available_space := s.f_frsize * s.f_bavail
              total_space := s.f_frsize * s.f_blocks
              allocation_granularity := s.f_frsize }, true))) := by
  refine ⟨?_, ?_, ?_⟩
  · intro h
    unfold statvfs
    rw [if_pos h]
  · intro h
    by_contra hnul
    have hfalse : path.contains 0 = false := by simpa using hnul
    unfold statvfs at h
    rw [if_neg (by simpa using hfalse)] at h
    cases out with
    | error e => simp at h
    | ok s => simp at h
  · intro h
    refine ⟨?_, ?_⟩
    · intro e he
      subst he
      unfold statvfs
      rw [if_neg (by simpa using h)]
    · intro s hs
      subst hs
      unfold statvfs
      rw [if_neg (by simpa using h)]

/-- **C4**. The macOS-family `allocate`: both preallocation attempts are
skipped when the current physical allocation already covers `len`; otherwise
the first `F_PREALLOCATE` call requests `F_ALLOCATECONTIG` for `len`, the
`F_ALLOCATEALL` retry for the same `len` is issued exactly when the contiguous
attempt fails, and the allocation step fails only when both attempts fail;
when the allocation step does not fail, `set_len` is issued exactly when the
logical length at entry is below `len`, and (when it succeeds) the logical
length becomes `len` exactly when it was below `len`. -/
theorem macos_allocate_contig_then_all (env : MacEnv) (st : UnixFileStat) (len : Nat)
    (hm : env.metaOut.ok = true) :
    (¬ len > st.blocks * 512 →
      ∀ fl l, MacCall.prealloc fl l ∉ (macosAllocate env st len).2.2) ∧
    (len > st.blocks * 512 →
      (macosAllocate env st len).2.2.head? =
        some (MacCall.prealloc F_ALLOCATECONTIG len) ∧
      (env.contigOut.ok = false ↔
        MacCall.prealloc F_ALLOCATEALL len ∈ (macosAllocate env st len).2.2)) ∧
    (len > st.blocks * 512 → env.contigOut.ok = false → env.allOut.ok = false →
      macosAllocate env st len =
        (Except.error env.allOut.errno, st,
         [MacCall.prealloc F_ALLOCATECONTIG len, MacCall.prealloc F_ALLOCATEALL len])) ∧
    ((¬ len > st.blocks * 512 ∨ env.contigOut.ok = true ∨ env.allOut.ok = true) →
      ((MacCall.setLen len ∈ (macosAllocate env st len).2.2) ↔ len > st.size) ∧
      (env.setLenOut.ok = true →
        (macosAllocate env st len).1 = Except.ok () ∧
        (macosAllocate env st len).2.1.size =
          if len > st.size then len else st.size)) := by
  by_cases h1 : len > st.blocks * 512 <;>
    by_cases hc : env.contigOut.ok = true <;>
      by_cases ha : env.allOut.ok = true <;>
        by_cases h2 : len > st.size <;>
          by_cases hs : env.setLenOut.ok = true <;>
            simp [macosAllocate, macLengthStep, F_ALLOCATECONTIG, F_ALLOCATEALL,
              hm, h1, hc, ha, h2, hs]

/-- Witness for `macos_allocate_contig_then_all` at a concrete sparse state:
six 512-byte blocks, logical length 100, request 4096. -/
theorem macos_allocate_contig_then_all_witness :
    (¬ (4096 : Nat) > 6 * 512 →
      ∀ fl l, MacCall.prealloc fl l ∉
        (macosAllocate
          { metaOut := okOut, contigOut := okOut, contigBlocks := 8,
            allOut := okOut, allBlocks := 8, setLenOut := okOut }
          { blocks := 6, size := 100 } 4096).2.2) ∧
    ((4096 : Nat) > 6 * 512 →
      (macosAllocate
          { metaOut := okOut, contigOut := okOut, contigBlocks := 8,
            allOut := okOut, allBlocks := 8, setLenOut := okOut }
          { blocks := 6, size := 100 } 4096).2.2.head? =
        some (MacCall.prealloc F_ALLOCATECONTIG 4096) ∧
      (({ metaOut := okOut, contigOut := okOut, contigBlocks := 8,
            allOut := okOut, allBlocks := 8, setLenOut := okOut } : MacEnv).contigOut.ok
          = false ↔
        MacCall.prealloc F_ALLOCATEALL 4096 ∈
          (macosAllocate
            { metaOut := okOut, contigOut := okOut, contigBlocks := 8,
              allOut := okOut, allBlocks := 8, setLenOut := okOut }
            { blocks := 6, size := 100 } 4096).2.2)) ∧
    ((4096 : Nat) > 6 * 512 →
      ({ metaOut := okOut, contigOut := okOut, contigBlocks := 8,
            allOut := okOut, allBlocks := 8, setLenOut := okOut } : MacEnv).contigOut.ok
          = false →
      ({ metaOut := okOut, contigOut := okOut, contigBlocks := 8,
            allOut := okOut, allBlocks := 8, setLenOut := okOut } : MacEnv).allOut.ok
          = false →
      macosAllocate
          { metaOut := okOut, contigOut := okOut, contigBlocks := 8,
            allOut := okOut, allBlocks := 8, setLenOut := okOut }
          { blocks := 6, size := 100 } 4096 =
        (Except.error
          ({ metaOut := okOut, contigOut := okOut, contigBlocks := 8,
              allOut := okOut, allBlocks := 8, setLenOut := okOut } : MacEnv).allOut.errno,
         { blocks := 6, size := 100 },
         [MacCall.prealloc F_ALLOCATECONTIG 4096, MacCall.prealloc F_ALLOCATEALL 4096])) ∧
    ((¬ (4096 : Nat) > 6 * 512 ∨
      ({ metaOut := okOut, contigOut := okOut, contigBlocks := 8,
            allOut := okOut, allBlocks := 8, setLenOut := okOut } : MacEnv).contigOut.ok
          = true ∨
      ({ metaOut := okOut, contigOut := okOut, contigBlocks := 8,
            allOut := okOut, allBlocks := 8, setLenOut := okOut } : MacEnv).allOut.ok
          = true) →
      ((MacCall.setLen 4096 ∈
          (macosAllocate
            { metaOut := okOut, contigOut := okOut, contigBlocks := 8,
              allOut := okOut, allBlocks := 8, setLenOut := okOut }
            { blocks := 6, size := 100 } 4096).2.2) ↔
        (4096 : Nat) > 100) ∧
      (({ metaOut := okOut, contigOut := okOut, contigBlocks := 8,
            allOut := okOut, allBlocks := 8, setLenOut := okOut } : MacEnv).setLenOut.ok
          = true →
        (macosAllocate
            { metaOut := okOut, contigOut := okOut, contigBlocks := 8,
              allOut := okOut, allBlocks := 8, setLenOut := okOut }
            { blocks := 6, size := 100 } 4096).1 = Except.ok () ∧
        (macosAllocate
            { metaOut := okOut, contigOut := okOut, contigBlocks := 8,
              allOut := okOut, allBlocks := 8, setLenOut := okOut }
            { blocks := 6, size := 100 } 4096).2.1.size =
          if (4096 : Nat) > 100 then 4096 else 100)) :=
  macos_allocate_contig_then_all
    { metaOut := okOut, contigOut := okOut, contigBlocks := 8,
      allOut := okOut, allBlocks := 8, setLenOut := okOut }
    { blocks := 6, size := 100 } 4096 rfl

/-- Witness for `statvfs_spec`: a path containing a NUL byte short-circuits
without the syscall; a clean path with a successful syscall multiplies out the
native counts. -/
theorem statvfs_spec_witness :
    statvfs (Except.ok { f_frsize := 4096, f_bfree := 7, f_bavail := 5, f_blocks := 10 })
        [102, 0, 111] = (Except.error StatvfsErr.invalidInput, false) ∧
    statvfs (Except.ok { f_frsize := 4096, f_bfree := 7, f_bavail := 5, f_blocks := 10 })
        [102, 111] =
      (Except.ok
        { free_space := 4096 * 7
          available_space := 4096 * 5
          total_space := 4096 * 10
          allocation_granularity := 4096 }, true) :=
  ⟨(statvfs_spec _ [102, 0, 111]).1 (by decide),
   ((statvfs_spec _ [102, 111]).2.2 (by decide)).2 _ rfl⟩

/-- Counterexample to **C2**.  On the no-allocation-API platforms
(openbsd/netbsd/dragonfly/solaris/haiku) `allocate` only extends the logical
length: starting from an empty file (0 blocks, length 0), `allocate(_, 1024)`
succeeds by `set_len` alone, which creates a hole — afterwards the logical
length is 1024 but the physical allocation is still `0 * 512 = 0 < 1024`, so
success does not imply physical allocation ≥ `len`. -/
theorem allocate_no_physical_guarantee_counterexample :
    fallbackAllocate fallbackEnvOk { blocks := 0, size := 0 } 1024 =
      (Except.ok (), { blocks := 0, size := 1024 }) ∧
    (fallbackAllocate fallbackEnvOk { blocks := 0, size := 0 } 1024).2.blocks * 512 <
      1024 :=
  ⟨rfl, by decide⟩

/-- **C2 amended**.  Success of `allocate` guarantees physical allocation
≥ `len` and logical length ≥ `len` on the platforms with a real preallocation
mechanism — Linux-family (`posix_fallocate`, whose contract supplies the
hypothesis on `fallocBlocks`), macOS family (`F_PREALLOCATE`, hypotheses on
the post-call block counts), and Windows; on the remaining Unix platforms
success guarantees only logical length ≥ `len`. -/
theorem allocate_postcondition (envL : LinuxEnv) (envM : MacEnv) (envW : WinEnv)
    (envF : FallbackEnv) (stL stM stF : UnixFileStat) (f : WinFile) (len : Nat)
    (hL : envL.fallocBlocks * 512 ≥ len)
    (hMc : envM.contigBlocks * 512 ≥ len) (hMa : envM.allBlocks * 512 ≥ len) :
    ((linuxAllocate envL stL len).1 = Except.ok () →
      (linuxAllocate envL stL len).2.blocks * 512 ≥ len ∧
      (linuxAllocate envL stL len).2.size ≥ len) ∧
    ((macosAllocate envM stM len).1 = Except.ok () →
      (macosAllocate envM stM len).2.1.blocks * 512 ≥ len ∧
      (macosAllocate envM stM len).2.1.size ≥ len) ∧
    ((winAllocate envW f len).1 = Except.ok () →
      (winAllocate envW f len).2.1.allocationSize ≥ len ∧
      (winAllocate envW f len).2.1.eof ≥ len) ∧
    ((fallbackAllocate envF stF len).1 = Except.ok () →
      (fallbackAllocate envF stF len).2.size ≥ len) := by
  refine ⟨?_, ?_, ?_, ?_⟩
  · intro h
    by_cases hf : envL.falloc.ok = true
    · refine ⟨by simpa [linuxAllocate, hf] using hL, ?_⟩
      simp only [linuxAllocate, hf, if_true]
      exact le_max_right _ _
    · exfalso
      unfold linuxAllocate at h
      rw [if_neg hf] at h
      exact Except.noConfusion h
  · intro h
    by_cases hm : envM.metaOut.ok = true
    · by_cases h1 : len > stM.blocks * 512
      · by_cases hc : envM.contigOut.ok = true
        · rw [macosAllocate_contig _ _ _ hm h1 hc] at h ⊢
          have hf := macLengthStep_ok_facts envM stM { stM with blocks := envM.contigBlocks }
            [MacCall.prealloc F_ALLOCATECONTIG len] len rfl h
          exact ⟨by rw [hf.2]; exact hMc, hf.1⟩
        · have hc2 : envM.contigOut.ok = false := by simpa using hc
          by_cases ha : envM.allOut.ok = true
          · rw [macosAllocate_retry _ _ _ hm h1 hc2 ha] at h ⊢
            have hf := macLengthStep_ok_facts envM stM { stM with blocks := envM.allBlocks }
              [MacCall.prealloc F_ALLOCATECONTIG len, MacCall.prealloc F_ALLOCATEALL len]
              len rfl h
            exact ⟨by rw [hf.2]; exact hMa, hf.1⟩
          · exfalso
            have ha2 : envM.allOut.ok = false := by simpa using ha
            rw [macosAllocate_bothfail _ _ _ hm h1 hc2 ha2] at h
            exact Except.noConfusion h
      · rw [macosAllocate_skip _ _ _ hm h1] at h ⊢
        have hf := macLengthStep_ok_facts _ _ _ _ _ rfl h
        refine ⟨?_, hf.1⟩
        rw [hf.2]
        omega
    · exfalso
      have hm2 : envM.metaOut.ok = false := by simpa using hm
      rw [macosAllocate_meta_err _ _ _ hm2] at h
      exact Except.noConfusion h
  · intro h
    by_cases hq : envW.queryOut.ok = true
    · by_cases h1 : f.allocationSize < len
      · by_cases hsI : envW.setInfoOut.ok = true
        · rw [winAllocate_set _ _ _ hq h1 hsI] at h ⊢
          have hf := winLengthStep_ok_facts _ _ _ _ h
          exact ⟨by rw [hf.2], hf.1⟩
        · exfalso
          have hsI2 : envW.setInfoOut.ok = false := by simpa using hsI
          rw [winAllocate_set_err _ _ _ hq h1 hsI2] at h
          exact Except.noConfusion h
      · rw [winAllocate_skip _ _ _ hq h1] at h ⊢
        have hf := winLengthStep_ok_facts _ _ _ _ h
        refine ⟨?_, hf.1⟩
        rw [hf.2]
        omega
    · exfalso
      have hq2 : envW.queryOut.ok = false := by simpa using hq
      rw [winAllocate_query_err _ _ _ hq2] at h
      exact Except.noConfusion h
  · intro h
    by_cases hmF : envF.metaOut.ok = true
    · by_cases h2 : len > stF.size
      · by_cases hs : envF.setLenOut.ok = true
        · simp [fallbackAllocate, hmF, h2, hs]
        · exfalso
          unfold fallbackAllocate at h
          rw [if_pos hmF, if_pos h2, if_neg hs] at h
          exact Except.noConfusion h
      · simp [fallbackAllocate, hmF, h2]
        omega
    · exfalso
      unfold fallbackAllocate at h
      rw [if_neg hmF] at h
      exact Except.noConfusion h

/-- Witness for `allocate_postcondition` on concrete successful runs across
the four platform tiers. -/
theorem allocate_postcondition_witness :
    ((linuxAllocate { falloc := okOut, fallocBlocks := 8 }
        { blocks := 0, size := 0 } 1024).2.blocks * 512 ≥ 1024 ∧
      (linuxAllocate { falloc := okOut, fallocBlocks := 8 }
        { blocks := 0, size := 0 } 1024).2.size ≥ 1024) ∧
    ((macosAllocate
        { metaOut := okOut, contigOut := okOut, contigBlocks := 8,
          allOut := okOut, allBlocks := 8, setLenOut := okOut }
        { blocks := 0, size := 0 } 4096).2.1.blocks * 512 ≥ 4096 ∧
      (macosAllocate
        { metaOut := okOut, contigOut := okOut, contigBlocks := 8,
          allOut := okOut, allBlocks := 8, setLenOut := okOut }
        { blocks := 0, size := 0 } 4096).2.1.size ≥ 4096) ∧
    ((winAllocate winEnvOk { allocationSize := 0, eof := 0 } 4096).2.1.allocationSize ≥
        4096 ∧
      (winAllocate winEnvOk { allocationSize := 0, eof := 0 } 4096).2.1.eof ≥ 4096) ∧
    (fallbackAllocate fallbackEnvOk { blocks := 0, size := 0 } 1024).2.size ≥ 1024 :=
  have hp := allocate_postcondition
    { falloc := okOut, fallocBlocks := 8 }
    { metaOut := okOut, contigOut := okOut, contigBlocks := 8,
      allOut := okOut, allBlocks := 8, setLenOut := okOut }
    winEnvOk fallbackEnvOk
    { blocks := 0, size := 0 } { blocks := 0, size := 0 } { blocks := 0, size := 0 }
    { allocationSize := 0, eof := 0 } 1024
  -- `len` differs across the tiers, so instantiate twice
  have hp2 := allocate_postcondition
    { falloc := okOut, fallocBlocks := 8 }
    { metaOut := okOut, contigOut := okOut, contigBlocks := 8,
      allOut := okOut, allBlocks := 8, setLenOut := okOut }
    winEnvOk fallbackEnvOk
    { blocks := 0, size := 0 } { blocks := 0, size := 0 } { blocks := 0, size := 0 }
    { allocationSize := 0, eof := 0 } 4096
  ⟨(hp (by decide) (by decide) (by decide)).1 rfl,
   (hp2 (by decide) (by decide) (by decide)).2.1 rfl,
   (hp2 (by decide) (by decide) (by decide)).2.2.1 rfl,
   (hp (by decide) (by decide) (by decide)).2.2.2 rfl⟩

/-- Counterexample to **C5**.  On a file whose allocation (0) is below the
requested `len` (4096), the Windows `allocate` issues
`[queryInfo, setFileInfo 4096, metaQuery, setLen 4096]`: the allocation is
forced by a single `SetFileInformationByHandle(FileAllocationInfo)` call — no
set-file-pointer and no set-end-of-file call occurs. -/
theorem windows_allocate_mechanism_counterexample :
    (winAllocate winEnvOk { allocationSize := 0, eof := 0 } 4096).2.2 =
      [WinCall.queryInfo, WinCall.setFileInfo 4096,
       WinCall.metaQuery, WinCall.setLen 4096] ∧
    WinCall.setFilePointer 4096 ∉
      (winAllocate winEnvOk { allocationSize := 0, eof := 0 } 4096).2.2 ∧
    WinCall.setEndOfFile ∉
      (winAllocate winEnvOk { allocationSize := 0, eof := 0 } 4096).2.2 ∧
    (winAllocate winEnvOk { allocationSize := 0, eof := 0 } 4096).1 =
      Except.ok () := by
  refine ⟨rfl, ?_, ?_, rfl⟩ <;> decide

/-- **C5 amended**.  The Windows `allocate` first queries the current
allocation via the file-information query; exactly when that allocation is
below `len` it issues one set-file-information call that sets the file's
allocation size to `len` (not a set-file-pointer/set-end-of-file pair — those
calls never occur); then it separately ensures the logical length is at least
`len` on success. -/
theorem windows_allocate_structure (env : WinEnv) (f : WinFile) (len : Nat)
    (hq : env.queryOut.ok = true) :
    (winAllocate env f len).2.2.head? = some WinCall.queryInfo ∧
    (f.allocationSize < len ↔
      WinCall.setFileInfo len ∈ (winAllocate env f len).2.2) ∧
    (f.allocationSize < len → env.setInfoOut.ok = true →
      (winAllocate env f len).2.1.allocationSize = len) ∧
    ((winAllocate env f len).1 = Except.ok () →
      (winAllocate env f len).2.1.eof ≥ len) ∧
    WinCall.setEndOfFile ∉ (winAllocate env f len).2.2 ∧
    WinCall.setFilePointer len ∉ (winAllocate env f len).2.2 := by
  by_cases h1 : f.allocationSize < len
  · by_cases hsI : env.setInfoOut.ok = true
    · rw [winAllocate_set _ _ _ hq h1 hsI]
      refine ⟨?_, ?_, ?_, ?_, ?_, ?_⟩
      · rw [winLengthStep_trace]
        simp
      · rw [winLengthStep_trace]
        simp [h1]
      · intro _ _
        exact (winLengthStep_mono _ _ _ _).1
      · intro h
        exact (winLengthStep_ok_facts _ _ _ _ h).1
      · rw [winLengthStep_trace]
        by_cases hcnd : env.metaOut.ok = true ∧
            (({ allocationSize := len, eof := env.setInfoEof len f.eof } : WinFile).eof < len) <;>
          simp [hcnd]
      · rw [winLengthStep_trace]
        by_cases hcnd : env.metaOut.ok = true ∧
            (({ allocationSize := len, eof := env.setInfoEof len f.eof } : WinFile).eof < len) <;>
          simp [hcnd]
    · have hsI2 : env.setInfoOut.ok = false := by simpa using hsI
      rw [winAllocate_set_err _ _ _ hq h1 hsI2]
      refine ⟨rfl, ?_, ?_, ?_, ?_, ?_⟩
      · simp [h1]
      · intro _ hcontra
        rw [hsI2] at hcontra
        exact Bool.noConfusion hcontra
      · intro h
        exact absurd h (fun hh => Except.noConfusion hh)
      · simp
      · simp
  · rw [winAllocate_skip _ _ _ hq h1]
    refine ⟨?_, ?_, ?_, ?_, ?_, ?_⟩
    · rw [winLengthStep_trace]
      simp
    · rw [winLengthStep_trace]
      constructor
      · intro hcontra
        exact absurd hcontra h1
      · intro hmem
        by_cases hcnd : env.metaOut.ok = true ∧ f.eof < len <;> simp [hcnd] at hmem
    · intro hcontra
      exact absurd hcontra h1
    · intro h
      exact (winLengthStep_ok_facts _ _ _ _ h).1
    · rw [winLengthStep_trace]
      by_cases hcnd : env.metaOut.ok = true ∧ f.eof < len <;> simp [hcnd]
    · rw [winLengthStep_trace]
      by_cases hcnd : env.metaOut.ok = true ∧ f.eof < len <;> simp [hcnd]

/-- Witness for `windows_allocate_structure` at a concrete file whose
allocation is below the requested length. -/
theorem windows_allocate_structure_witness :
    (winAllocate winEnvOk { allocationSize := 0, eof := 0 } 4096).2.2.head? =
      some WinCall.queryInfo ∧
    (({ allocationSize := 0, eof := 0 } : WinFile).allocationSize < 4096 ↔
      WinCall.setFileInfo 4096 ∈
        (winAllocate winEnvOk { allocationSize := 0, eof := 0 } 4096).2.2) ∧
    (({ allocationSize := 0, eof := 0 } : WinFile).allocationSize < 4096 →
      winEnvOk.setInfoOut.ok = true →
      (winAllocate winEnvOk { allocationSize := 0, eof := 0 } 4096).2.1.allocationSize =
        4096) ∧
    ((winAllocate winEnvOk { allocationSize := 0, eof := 0 } 4096).1 = Except.ok () →
      (winAllocate winEnvOk { allocationSize := 0, eof := 0 } 4096).2.1.eof ≥ 4096) ∧
    WinCall.setEndOfFile ∉
      (winAllocate winEnvOk { allocationSize := 0, eof := 0 } 4096).2.2 ∧
    WinCall.setFilePointer 4096 ∉
      (winAllocate winEnvOk { allocationSize := 0, eof := 0 } 4096).2.2 :=
  windows_allocate_structure winEnvOk { allocationSize := 0, eof := 0 } 4096 rfl

/-- **C7** (the code, evaluated at the failing input).  `duplicate` is one
`libc::dup`, and per the documented `dup(2)` semantics the duplicate's
`FD_CLOEXEC` flag is cleared: duplicating a descriptor whose close-on-exec
flag is set yields a descriptor whose close-on-exec flag is off — the
attribute is not preserved (the repository's own `duplicate_cloexec` test
comment claims it is, but the test compares `F_GETFL` status flags, which
`dup` does share, instead of the `F_GETFD` flag word holding `FD_CLOEXEC`). -/
theorem duplicate_clears_cloexec :
    unixDuplicate okOut { cloexec := true, statusFlags := 2 } =
      Except.ok { cloexec := false, statusFlags := 2 } ∧
    ({ cloexec := false, statusFlags := 2 } : FdFlags).cloexec ≠
      ({ cloexec := true, statusFlags := 2 } : FdFlags).cloexec :=
  ⟨rfl, by decide⟩

/-- Counterexample to **C8**.  On macOS with a sparse file — 16 blocks
(8192 physical bytes) but logical length 100 — `allocate(_, 4096)` has `len`
below the current physical allocation, yet it is not a no-op: it succeeds and
*changes* the logical length, extending it from 100 to 4096 via `set_len`. -/
theorem allocate_below_alloc_not_noop_counterexample :
    macosAllocate macEnvAllOk { blocks := 16, size := 100 } 4096 =
      (Except.ok (), { blocks := 16, size := 4096 }, [MacCall.setLen 4096]) ∧
    (4096 : Nat) < 16 * 512 ∧
    (macosAllocate macEnvAllOk { blocks := 16, size := 100 } 4096).2.1.size ≠ 100 :=
  ⟨rfl, by decide, by decide⟩

/-- **C8 amended**.  `allocate` never shrinks the physical allocation or the
logical length, on success or failure (for the preallocation and set-allocation
OS calls this relies on their contracts, supplied as hypotheses: successful
preallocation does not lower the block count, and the Windows set-allocation
call does not lower the EOF).  When `len` is at most the current physical
allocation, no preallocation call is issued and the physical allocation is
unchanged — but the operation is not a no-op: it still extends the logical
length to `len` whenever the logical length was below `len` (succeeding
provided that extension succeeds). -/
theorem allocate_monotone (envL : LinuxEnv) (envM : MacEnv) (envW : WinEnv)
    (envF : FallbackEnv) (stL stM stF : UnixFileStat) (f : WinFile) (len : Nat)
    (hL : envL.fallocBlocks ≥ stL.blocks)
    (hMc : envM.contigBlocks ≥ stM.blocks) (hMa : envM.allBlocks ≥ stM.blocks)
    (hW : ∀ l e, e ≤ envW.setInfoEof l e) :
    ((linuxAllocate envL stL len).2.blocks ≥ stL.blocks ∧
      (linuxAllocate envL stL len).2.size ≥ stL.size) ∧
    ((macosAllocate envM stM len).2.1.blocks ≥ stM.blocks ∧
      (macosAllocate envM stM len).2.1.size ≥ stM.size) ∧
    ((winAllocate envW f len).2.1.allocationSize ≥ f.allocationSize ∧
      (winAllocate envW f len).2.1.eof ≥ f.eof) ∧
    ((fallbackAllocate envF stF len).2.blocks = stF.blocks ∧
      (fallbackAllocate envF stF len).2.size ≥ stF.size) ∧
    (len ≤ stM.blocks * 512 → envM.metaOut.ok = true →
      (∀ fl l, MacCall.prealloc fl l ∉ (macosAllocate envM stM len).2.2) ∧
      (macosAllocate envM stM len).2.1.blocks = stM.blocks ∧
      (envM.setLenOut.ok = true →
        (macosAllocate envM stM len).1 = Except.ok () ∧
        (macosAllocate envM stM len).2.1.size = max stM.size len)) ∧
    (len ≤ f.allocationSize → envW.queryOut.ok = true →
      WinCall.setFileInfo len ∉ (winAllocate envW f len).2.2 ∧
      (winAllocate envW f len).2.1.allocationSize = f.allocationSize) := by
  refine ⟨?_, ?_, ?_, ?_, ?_, ?_⟩
  · by_cases hf : envL.falloc.ok = true
    · refine ⟨by simpa [linuxAllocate, hf] using hL, ?_⟩
      simp only [linuxAllocate, hf, if_true]
      exact le_max_left _ _
    · simp [linuxAllocate, hf]
  · by_cases hm : envM.metaOut.ok = true
    · by_cases h1 : len > stM.blocks * 512
      · by_cases hc : envM.contigOut.ok = true
        · rw [macosAllocate_contig _ _ _ hm h1 hc]
          have hmono := macLengthStep_mono envM stM
            { stM with blocks := envM.contigBlocks } [MacCall.prealloc F_ALLOCATECONTIG len]
            len rfl
          exact ⟨by rw [hmono.1]; exact hMc, hmono.2⟩
        · have hc2 : envM.contigOut.ok = false := by simpa using hc
          by_cases ha : envM.allOut.ok = true
          · rw [macosAllocate_retry _ _ _ hm h1 hc2 ha]
            have hmono := macLengthStep_mono envM stM
              { stM with blocks := envM.allBlocks }
              [MacCall.prealloc F_ALLOCATECONTIG len, MacCall.prealloc F_ALLOCATEALL len]
              len rfl
            exact ⟨by rw [hmono.1]; exact hMa, hmono.2⟩
          · have ha2 : envM.allOut.ok = false := by simpa using ha
            rw [macosAllocate_bothfail _ _ _ hm h1 hc2 ha2]
            simp
      · rw [macosAllocate_skip _ _ _ hm h1]
        have hmono := macLengthStep_mono envM stM stM [] len rfl
        exact ⟨le_of_eq hmono.1.symm, hmono.2⟩
    · have hm2 : envM.metaOut.ok = false := by simpa using hm
      rw [macosAllocate_meta_err _ _ _ hm2]
      simp
  · by_cases hq : envW.queryOut.ok = true
    · by_cases h1 : f.allocationSize < len
      · by_cases hsI : envW.setInfoOut.ok = true
        · rw [winAllocate_set _ _ _ hq h1 hsI]
          have hmono := winLengthStep_mono envW
            { allocationSize := len, eof := envW.setInfoEof len f.eof }
            [WinCall.queryInfo, WinCall.setFileInfo len] len
          refine ⟨?_, ?_⟩
          · rw [hmono.1]
            exact Nat.le_of_lt h1
          · exact le_trans (hW len f.eof) hmono.2
        · have hsI2 : envW.setInfoOut.ok = false := by simpa using hsI
          rw [winAllocate_set_err _ _ _ hq h1 hsI2]
          simp
      · rw [winAllocate_skip _ _ _ hq h1]
        have hmono := winLengthStep_mono envW f [WinCall.queryInfo] len
        exact ⟨le_of_eq hmono.1.symm, hmono.2⟩
    · have hq2 : envW.queryOut.ok = false := by simpa using hq
      rw [winAllocate_query_err _ _ _ hq2]
      simp
  · by_cases hmF : envF.metaOut.ok = true <;>
      by_cases h2 : len > stF.size <;>
        by_cases hs : envF.setLenOut.ok = true <;>
          simp [fallbackAllocate, hmF, h2, hs] <;> omega
  · intro hle hm2
    have h1 : ¬ len > stM.blocks * 512 := by omega
    rw [macosAllocate_skip _ _ _ hm2 h1]
    refine ⟨?_, ?_, ?_⟩
    · intro fl l
      rw [macLengthStep_trace]
      by_cases h2 : len > stM.size <;> simp [h2]
    · exact (macLengthStep_mono envM stM stM [] len rfl).1
    · intro hsOk
      constructor
      · by_cases h2 : len > stM.size <;> simp [macLengthStep, h2, hsOk]
      · by_cases h2 : len > stM.size <;> simp [macLengthStep, h2, hsOk] <;> omega
  · intro hle hq2
    have h1 : ¬ f.allocationSize < len := by omega
    rw [winAllocate_skip _ _ _ hq2 h1]
    constructor
    · rw [winLengthStep_trace]
      by_cases hcnd : envW.metaOut.ok = true ∧ f.eof < len <;> simp [hcnd]
    · exact (winLengthStep_mono envW f [WinCall.queryInfo] len).1

/-- Witness for `allocate_monotone` on concrete inputs (the macOS input is
the sparse file of the counterexample analysis: physical allocation already
covers the request). -/
theorem allocate_monotone_witness :
    ((linuxAllocate { falloc := okOut, fallocBlocks := 8 }
        { blocks := 1, size := 10 } 4096).2.blocks ≥ 1 ∧
      (linuxAllocate { falloc := okOut, fallocBlocks := 8 }
        { blocks := 1, size := 10 } 4096).2.size ≥ 10) ∧
    ((macosAllocate
        { metaOut := okOut, contigOut := okOut, contigBlocks := 16,
          allOut := okOut, allBlocks := 16, setLenOut := okOut }
        { blocks := 16, size := 100 } 4096).2.1.blocks ≥ 16 ∧
      (macosAllocate
        { metaOut := okOut, contigOut := okOut, contigBlocks := 16,
          allOut := okOut, allBlocks := 16, setLenOut := okOut }
        { blocks := 16, size := 100 } 4096).2.1.size ≥ 100) ∧
    ((winAllocate winEnvOk { allocationSize := 8192, eof := 100 } 4096).2.1.allocationSize ≥
        8192 ∧
      (winAllocate winEnvOk { allocationSize := 8192, eof := 100 } 4096).2.1.eof ≥ 100) ∧
    ((fallbackAllocate fallbackEnvOk { blocks := 0, size := 10 } 4096).2.blocks = 0 ∧
      (fallbackAllocate fallbackEnvOk { blocks := 0, size := 10 } 4096).2.size ≥ 10) ∧
    ((4096 : Nat) ≤ 16 * 512 →
      ({ metaOut := okOut, contigOut := okOut, contigBlocks := 16,
          allOut := okOut, allBlocks := 16, setLenOut := okOut } : MacEnv).metaOut.ok
          = true →
      (∀ fl l, MacCall.prealloc fl l ∉
        (macosAllocate
          { metaOut := okOut, contigOut := okOut, contigBlocks := 16,
            allOut := okOut, allBlocks := 16, setLenOut := okOut }
          { blocks := 16, size := 100 } 4096).2.2) ∧
      (macosAllocate
          { metaOut := okOut, contigOut := okOut, contigBlocks := 16,
            allOut := okOut, allBlocks := 16, setLenOut := okOut }
          { blocks := 16, size := 100 } 4096).2.1.blocks = 16 ∧
      (({ metaOut := okOut, contigOut := okOut, contigBlocks := 16,
          allOut := okOut, allBlocks := 16, setLenOut := okOut } : MacEnv).setLenOut.ok
          = true →
        (macosAllocate
            { metaOut := okOut, contigOut := okOut, contigBlocks := 16,
              allOut := okOut, allBlocks := 16, setLenOut := okOut }
            { blocks := 16, size := 100 } 4096).1 = Except.ok () ∧
        (macosAllocate
            { metaOut := okOut, contigOut := okOut, contigBlocks := 16,
              allOut := okOut, allBlocks := 16, setLenOut := okOut }
            { blocks := 16, size := 100 } 4096).2.1.size = max 100 4096)) ∧
    ((4096 : Nat) ≤ 8192 → winEnvOk.queryOut.ok = true →
      WinCall.setFileInfo 4096 ∉
        (winAllocate winEnvOk { allocationSize := 8192, eof := 100 } 4096).2.2 ∧
      (winAllocate winEnvOk { allocationSize := 8192, eof := 100 } 4096).2.1.allocationSize =
        8192) :=
  allocate_monotone { falloc := okOut, fallocBlocks := 8 }
    { metaOut := okOut, contigOut := okOut, contigBlocks := 16,
      allOut := okOut, allBlocks := 16, setLenOut := okOut }
    winEnvOk fallbackEnvOk { blocks := 1, size := 10 } { blocks := 16, size := 100 }
    { blocks := 0, size := 10 } { allocationSize := 8192, eof := 100 } 4096
    (by decide) (by decide) (by decide) (fun l e => le_refl e)

end Fs4
